import Mathlib

/-!
Verification of the two native helper programs of the open-whispr paste
subsystem, shallowly embedded in Lean 4:

* `src/resources/windows-text-monitor.c` — watches the focused UI element's
  text value via UI Automation and reports changes on stdout.
* `src/resources/linux-fast-paste.c` — classifies the focused X11 window and
  synthesizes a Ctrl+V / Ctrl+Shift+V paste chord via the XTest extension.

The embedding abstracts the external platform APIs (COM / UI Automation,
Xlib / XTest) as oracles recorded in an environment structure: each boolean
field is the success of one API call, each read is the value the provider
returned. Timing (the 30 s timeout, the signal flag) is abstracted by the
finite list of poll reads the loop performs before it stops; payload
UTF-8 conversion and the 10240-char output truncation of `print_output`
are abstracted (payloads are modelled as the read strings themselves).
All control flow, comparisons, output lines, exit codes and the order of
synthesized events follow the C sources line by line.
-/

/-! ## Windows text monitor (`windows-text-monitor.c`) -/

/-- The poll loop of `main` (lines 152–170): each element of the list is one
iteration's read of the value pattern (`none` = `FAILED(hr) || !currentValue`,
skipped via `continue`).  The first argument is `lastValue`, a `BSTR` that may
in principle be null, guarded by `if (lastValue && wcscmp(...) != 0)`.
Returns the stdout lines emitted by the loop. -/
def pollLoop : Option String → List (Option String) → List String
  | _, [] => []
  | last, none :: rest => pollLoop last rest
  | last, some cur :: rest =>
      match last with
      | some l =>
          if cur ≠ l then ("CHANGED:" ++ cur) :: pollLoop (some cur) rest
          else pollLoop (some l) rest
      | none => pollLoop none rest

/-- The same loop with the baseline known to be non-null: used to state that
the null-guard on `lastValue` never fails once the initial value was read. -/
def pollLoopS : String → List (Option String) → List String
  | _, [] => []
  | last, none :: rest => pollLoopS last rest
  | last, some cur :: rest =>
      if cur ≠ last then ("CHANGED:" ++ cur) :: pollLoopS cur rest
      else pollLoopS last rest

/-- The baseline (`lastValue`) held after the loop has processed the given
reads, starting from baseline `b`: each successful read that differs from the
current baseline is adopted. -/
def finalBaseline : String → List (Option String) → String
  | b, [] => b
  | b, none :: rest => finalBaseline b rest
  | b, some cur :: rest =>
      if cur ≠ b then finalBaseline cur rest else finalBaseline b rest

/-- Last element of a list of output lines, if any. -/
def lastLine : List String → Option String
  | [] => none
  | [l] => some l
  | _ :: l :: rest => lastLine (l :: rest)

/-- Environment of one run of the Windows monitor: success of each
initialization step, the initial value read, and the successive reads
performed by the poll loop before timeout or signal stops it. -/
structure WinEnv where
  comOk : Bool
  autoOk : Bool
  focusOk : Bool
  valuePatternOk : Bool
  initialRead : Option String
  polls : List (Option String)
deriving Repr

/-- Observable outcome of a run: stdout lines, exit status, and the number of
`Sleep(POLL_INTERVAL_MS)` calls performed. -/
structure WinResult where
  lines : List String
  exitCode : Nat
  sleeps : Nat
deriving Repr, DecidableEq

/-- `main` of `windows-text-monitor.c` (lines 65–179).  `CoInitializeEx`,
`CoCreateInstance` and `GetFocusedElement` failures each print `NO_ELEMENT`
and return 1; a missing value pattern or a failed initial read prints
`NO_VALUE` and returns 0; otherwise `INITIAL_VALUE:` is printed and the poll
loop runs (one sleep per iteration), returning 0. -/
def winRun (env : WinEnv) : WinResult :=
  if env.comOk then
    if env.autoOk then
      if env.focusOk then
        if env.valuePatternOk then
          match env.initialRead with
          | some v0 =>
              ⟨("INITIAL_VALUE:" ++ v0) :: pollLoop (some v0) env.polls,
               0, env.polls.length⟩
          | none => ⟨["NO_VALUE"], 0, 0⟩
        else ⟨["NO_VALUE"], 0, 0⟩
      else ⟨["NO_ELEMENT"], 1, 0⟩
    else ⟨["NO_ELEMENT"], 1, 0⟩
  else ⟨["NO_ELEMENT"], 1, 0⟩

lemma pollLoop_some_eq (b : String) (l : List (Option String)) :
    pollLoop (some b) l = pollLoopS b l := by
  induction l generalizing b with
  | nil => rfl
  | cons r rest ih =>
      cases r with
      | none => simpa [pollLoop, pollLoopS] using ih b
      | some cur =>
          by_cases h : cur = b
          · simp [pollLoop, pollLoopS, h, ih]
          · simp [pollLoop, pollLoopS, h, ih]

lemma pollLoopS_append (b : String) (l₁ l₂ : List (Option String)) :
    pollLoopS b (l₁ ++ l₂) =
      pollLoopS b l₁ ++ pollLoopS (finalBaseline b l₁) l₂ := by
  induction l₁ generalizing b with
  | nil => simp [pollLoopS, finalBaseline]
  | cons r rest ih =>
      cases r with
      | none => simpa [pollLoopS, finalBaseline] using ih b
      | some cur =>
          by_cases h : cur = b
          · simp [pollLoopS, finalBaseline, h, ih]
          · simp [pollLoopS, finalBaseline, h, ih]

lemma lastLine_cons (a : String) (l : List String) (h : l ≠ []) :
    lastLine (a :: l) = lastLine l := by
  cases l with
  | nil => exact absurd rfl h
  | cons b rest => rfl

lemma lastLine_cons_ne_none (a : String) (l : List String) :
    lastLine (a :: l) ≠ none := by
  induction l generalizing a with
  | nil => simp [lastLine]
  | cons b rest ih => simpa [lastLine] using ih b

/-- The baseline after processing a block of reads is the initial baseline if
no `CHANGED:` line was emitted, and otherwise the payload of the last
`CHANGED:` line emitted. -/
lemma pollLoopS_lastLine (b : String) (l : List (Option String)) :
    (pollLoopS b l = [] ∧ finalBaseline b l = b) ∨
      lastLine (pollLoopS b l) = some ("CHANGED:" ++ finalBaseline b l) := by
  induction l generalizing b with
  | nil => exact Or.inl ⟨rfl, rfl⟩
  | cons r rest ih =>
      cases r with
      | none => simpa [pollLoopS, finalBaseline] using ih b
      | some cur =>
          by_cases h : cur = b
          · simpa [pollLoopS, finalBaseline, h] using ih b
          · rcases ih cur with ⟨h1, h2⟩ | h1
            · refine Or.inr ?_
              simp [pollLoopS, finalBaseline, h, h1, h2, lastLine]
            · refine Or.inr ?_
              have hne : pollLoopS cur rest ≠ [] := by
                intro hnil
                rw [hnil] at h1
                simp [lastLine] at h1
              simp only [pollLoopS, finalBaseline, h, if_neg, ite_not,
                if_false] at *
              rw [lastLine_cons _ _ hne]
              exact h1

lemma pollLoopS_lines (b : String) (l : List (Option String)) :
    ∀ x ∈ pollLoopS b l, ∃ w, x = "CHANGED:" ++ w := by
  induction l generalizing b with
  | nil => simp [pollLoopS]
  | cons r rest ih =>
      cases r with
      | none => simpa [pollLoopS] using ih b
      | some cur =>
          by_cases h : cur = b
          · simpa [pollLoopS, h] using ih b
          · intro x hx
            simp only [pollLoopS, if_neg, h] at hx
            rw [if_pos (by simpa using h)] at hx
            rcases List.mem_cons.mp hx with hx | hx
            · exact ⟨cur, hx⟩
            · exact ih cur x hx

/-! ## Linux fast paste (`linux-fast-paste.c`) -/

/-- The fixed terminal-class list (lines 13–18), without the `NULL`
terminator. -/
def terminal_classes : List String :=
  ["konsole", "gnome-terminal", "terminal", "kitty", "alacritty",
   "terminator", "xterm", "urxvt", "rxvt", "tilix", "terminology",
   "wezterm", "foot", "st", "yakuake", "ghostty", "guake", "tilda",
   "hyper", "tabby", "sakura", "warp"]

/-- Case-insensitive prefix test: does the needle (first argument) occur at
the start of the haystack, comparing characters through `Char.toLower`
(C `tolower` on ASCII)? -/
def prefixCaseless : List Char → List Char → Bool
  | [], _ => true
  | _ :: _, [] => false
  | n :: ns, h :: hs => (n.toLower == h.toLower) && prefixCaseless ns hs

/-- Model of glibc `strcasestr(hay, needle) != NULL`: the needle occurs in
the haystack at some position, case-insensitively. -/
def hasInfixCaseless (hay needle : List Char) : Bool :=
  match hay with
  | [] => prefixCaseless needle []
  | _ :: hs => prefixCaseless needle hay || hasInfixCaseless hs needle

/-- `is_terminal` (lines 20–27): a `NULL` class string never matches;
otherwise test `strcasestr` against every entry of `terminal_classes`. -/
def is_terminal (wm_class : Option String) : Bool :=
  match wm_class with
  | none => false
  | some s => terminal_classes.any fun t => hasInfixCaseless s.toList t.toList

/-- The `(res_name, res_class)` pair filled in by `XGetClassHint`. -/
structure ClassHint where
  resName : Option String
  resClass : Option String

/-- The argument loop of `main` (lines 82–88): `--terminal` sets
`force_terminal`; `--window` followed by a further argument stores
`strtoul` of that argument as the target window (`stou` is the `strtoul`
oracle; `Window` is a `Nat`, `None = 0`); anything else is ignored. -/
def parseArgs (stou : String → Nat) :
    List String → Bool → Nat → Bool × Nat
  | [], ft, tw => (ft, tw)
  | a :: rest, ft, tw =>
    if a = "--terminal" then parseArgs stou rest true tw
    else if a = "--window" then
      match rest with
      | v :: rest2 => parseArgs stou rest2 ft (stou v)
      | [] => (ft, tw)
    else parseArgs stou rest ft tw

/-- The three symbolic keys translated once by `XKeysymToKeycode`
(lines 116–118). -/
inductive Key where
  | ctrl
  | shift
  | v
deriving Repr, DecidableEq

/-- One observable X11 action of a run, in program order. -/
inductive Act where
  | sendActivate (w : Nat)
  | setFocus (w : Nat)
  | key (k : Key) (press : Bool)
  | sleepUs (n : Nat)
  | flush
deriving Repr, DecidableEq

/-- `activate_window` (lines 53–76): `_NET_ACTIVE_WINDOW` client message,
flush, 50 ms settle, direct `XSetInputFocus` fallback, flush, 20 ms settle. -/
def activateTrace (w : Nat) : List Act :=
  [.sendActivate w, .flush, .sleepUs 50000,
   .setFocus w, .flush, .sleepUs 20000]

/-- The synthesized paste chord (lines 120–135): Ctrl down, Shift down when
`use_shift`, 8 ms, V down, 8 ms, V up, 8 ms, Shift up when `use_shift`,
Ctrl up, flush, 20 ms settle. -/
def chordTrace (us : Bool) : List Act :=
  [Act.key .ctrl true]
    ++ (if us then [Act.key .shift true] else [])
    ++ [.sleepUs 8000, Act.key .v true, .sleepUs 8000, Act.key .v false,
        .sleepUs 8000]
    ++ (if us then [Act.key .shift false] else [])
    ++ [Act.key .ctrl false, .flush, .sleepUs 20000]

/-- Environment of one run of the Linux helper: success of `XOpenDisplay`
and `XTestQueryExtension`, the window returned by `get_active_window`
(`0 = None`), the result of `XGetClassHint` per window, and the `strtoul`
oracle used for `--window` values. -/
structure LinuxEnv where
  displayOk : Bool
  xtestOk : Bool
  activeWindow : Nat
  classHint : Nat → Option ClassHint
  stou : String → Nat

/-- Observable outcome of a run: exit status and X11 action trace. -/
structure LinuxResult where
  exitCode : Nat
  trace : List Act
deriving Repr, DecidableEq

/-- Window resolution (line 104): the explicit target when one was supplied,
otherwise the active-window query. -/
def resolveWin (env : LinuxEnv) (tw : Nat) : Nat :=
  if tw ≠ 0 then tw else env.activeWindow

/-- The classification block (lines 106–114): `use_shift` starts as
`force_terminal`; when it is false and a window was resolved and
`XGetClassHint` succeeds, it becomes `is_terminal(res_class) ||
is_terminal(res_name)`. -/
def useShift (env : LinuxEnv) (ft : Bool) (win : Nat) : Bool :=
  if ft then true
  else if win ≠ 0 then
    match env.classHint win with
    | some hint => is_terminal hint.resClass || is_terminal hint.resName
    | none => false
  else false

/-- `main` of `linux-fast-paste.c` (lines 78–138): parse arguments, fail with
exit 1 when the display cannot be opened, with exit 2 when XTest is missing;
activate an explicitly supplied window; resolve, classify, synthesize the
chord, exit 0. -/
def linuxRun (env : LinuxEnv) (args : List String) : LinuxResult :=
  let p := parseArgs env.stou args false 0
  if env.displayOk then
    if env.xtestOk then
      let tw := p.2
      let acts := if tw ≠ 0 then activateTrace tw else []
      let win := resolveWin env tw
      let us := useShift env p.1 win
      ⟨0, acts ++ chordTrace us⟩
    else ⟨2, []⟩
  else ⟨1, []⟩

/-- The key events of a trace, in order, with everything else erased. -/
def keyEvents (t : List Act) : List (Key × Bool) :=
  t.filterMap fun a =>
    match a with
    | Act.key k p => some (k, p)
    | _ => none

/-- The paste chord as the spec describes it: Control down, Shift down iff
`use_shift`, V down, V up, Shift up iff `use_shift`, Control up. -/
def pasteChordSpec (us : Bool) : List (Key × Bool) :=
  [(Key.ctrl, true)]
    ++ (if us then [(Key.shift, true)] else [])
    ++ [(Key.v, true), (Key.v, false)]
    ++ (if us then [(Key.shift, false)] else [])
    ++ [(Key.ctrl, false)]

lemma parseArgs_term (stou : String → Nat) (rest : List String)
    (ft : Bool) (tw : Nat) :
    parseArgs stou ("--terminal" :: rest) ft tw =
      parseArgs stou rest true tw := by
  cases rest with
  | nil => simp [parseArgs]
  | cons v rest2 => simp [parseArgs]

lemma parseArgs_win_cons (stou : String → Nat) (v : String)
    (rest2 : List String) (ft : Bool) (tw : Nat) :
    parseArgs stou ("--window" :: v :: rest2) ft tw =
      parseArgs stou rest2 ft (stou v) := by
  simp [parseArgs]

lemma parseArgs_win_one (stou : String → Nat) (ft : Bool) (tw : Nat) :
    parseArgs stou ["--window"] ft tw = (ft, tw) := by
  simp [parseArgs]

lemma parseArgs_other (stou : String → Nat) (a : String)
    (rest : List String) (ft : Bool) (tw : Nat)
    (ha : a ≠ "--terminal") (hb : a ≠ "--window") :
    parseArgs stou (a :: rest) ft tw = parseArgs stou rest ft tw := by
  cases rest with
  | nil => simp [parseArgs, ha, hb]
  | cons v rest2 => simp [parseArgs, ha, hb]

lemma parseArgs_fst_of_not_mem (stou : String → Nat) :
    ∀ (l : List String) (ft : Bool) (tw : Nat), "--terminal" ∉ l →
      (parseArgs stou l ft tw).1 = ft
  | [], _, _, _ => rfl
  | [a], ft, tw, h => by
      have ha : a ≠ "--terminal" := by
        intro hc; exact h (by simp [hc])
      by_cases hb : a = "--window"
      · subst hb; rw [parseArgs_win_one]
      · rw [parseArgs_other stou a [] ft tw ha hb]; rfl
  | a :: v :: rest2, ft, tw, h => by
      have ha : a ≠ "--terminal" := by
        intro hc; exact h (by simp [hc])
      by_cases hb : a = "--window"
      · have h2 : "--terminal" ∉ rest2 := by
          intro hc; exact h (by simp [hc])
        subst hb
        rw [parseArgs_win_cons]
        exact parseArgs_fst_of_not_mem stou rest2 ft (stou v) h2
      · have h2 : "--terminal" ∉ v :: rest2 := by
          intro hc
          rcases List.mem_cons.mp hc with hc | hc
          · exact h (by simp [hc])
          · exact h (by simp [hc])
        rw [parseArgs_other stou a (v :: rest2) ft tw ha hb]
        exact parseArgs_fst_of_not_mem stou (v :: rest2) ft tw h2

lemma parseArgs_snd_of_not_mem (stou : String → Nat) :
    ∀ (l : List String) (ft : Bool) (tw : Nat), "--window" ∉ l →
      (parseArgs stou l ft tw).2 = tw
  | [], _, _, _ => rfl
  | [a], ft, tw, h => by
      have hb : a ≠ "--window" := by
        intro hc; exact h (by simp [hc])
      by_cases ha : a = "--terminal"
      · subst ha; rw [parseArgs_term]; rfl
      · rw [parseArgs_other stou a [] ft tw ha hb]; rfl
  | a :: v :: rest2, ft, tw, h => by
      have hb : a ≠ "--window" := by
        intro hc; exact h (by simp [hc])
      have h2 : "--window" ∉ v :: rest2 := by
        intro hc
        rcases List.mem_cons.mp hc with hc | hc
        · exact h (by simp [hc])
        · exact h (by simp [hc])
      by_cases ha : a = "--terminal"
      · subst ha
        rw [parseArgs_term]
        exact parseArgs_snd_of_not_mem stou (v :: rest2) true tw h2
      · rw [parseArgs_other stou a (v :: rest2) ft tw ha hb]
        exact parseArgs_snd_of_not_mem stou (v :: rest2) ft tw h2

lemma parseArgs_append_of_not_mem (stou : String → Nat)
    (l₁ l₂ : List String) (ft : Bool) (tw : Nat) (h : "--window" ∉ l₁) :
    parseArgs stou (l₁ ++ l₂) ft tw =
      parseArgs stou l₂ (parseArgs stou l₁ ft tw).1
        (parseArgs stou l₁ ft tw).2 := by
  induction l₁ generalizing ft tw with
  | nil => rfl
  | cons a rest ih =>
      have hb : a ≠ "--window" := by
        intro hc; exact h (by simp [hc])
      have h2 : "--window" ∉ rest := by
        intro hc; exact h (by simp [hc])
      by_cases ha : a = "--terminal"
      · subst ha
        rw [List.cons_append, parseArgs_term, parseArgs_term]
        exact ih true tw h2
      · rw [List.cons_append, parseArgs_other stou a (rest ++ l₂) ft tw ha hb,
          parseArgs_other stou a rest ft tw ha hb]
        exact ih ft tw h2

lemma prefixCaseless_iff (ns : List Char) :
    ∀ hs : List Char, (prefixCaseless ns hs = true ↔
      ∃ v, ns.map Char.toLower ++ v = hs.map Char.toLower) := by
  induction ns with
  | nil =>
      intro hs
      simp [prefixCaseless]
  | cons n ns' ih =>
      intro hs
      cases hs with
      | nil =>
          simp [prefixCaseless]
      | cons h hs' =>
          simp only [prefixCaseless, Bool.and_eq_true, beq_iff_eq,
            List.map_cons, List.cons_append, List.cons.injEq]
          constructor
          · rintro ⟨he, hp⟩
            rcases (ih hs').mp hp with ⟨v, hv⟩
            exact ⟨v, he, hv⟩
          · rintro ⟨v, he, hv⟩
            exact ⟨he, (ih hs').mpr ⟨v, hv⟩⟩

lemma hasInfixCaseless_iff (hay : List Char) :
    ∀ ns : List Char, (hasInfixCaseless hay ns = true ↔
      ∃ u v, u ++ ns.map Char.toLower ++ v = hay.map Char.toLower) := by
  induction hay with
  | nil =>
      intro ns
      cases ns with
      | nil => simp [hasInfixCaseless, prefixCaseless]
      | cons n ns' => simp [hasInfixCaseless, prefixCaseless]
  | cons h hs ih =>
      intro ns
      simp only [hasInfixCaseless, Bool.or_eq_true]
      constructor
      · rintro (hp | hi)
        · rcases (prefixCaseless_iff ns (h :: hs)).mp hp with ⟨v, hv⟩
          exact ⟨[], v, by simpa using hv⟩
        · rcases (ih ns).mp hi with ⟨u, v, huv⟩
          exact ⟨Char.toLower h :: u, v, by simp [huv]⟩
      · rintro ⟨u, v, huv⟩
        cases u with
        | nil =>
            refine Or.inl ((prefixCaseless_iff ns (h :: hs)).mpr ⟨v, ?_⟩)
            simpa using huv
        | cons c u' =>
            refine Or.inr ((ih ns).mpr ⟨u', v, ?_⟩)
            simp only [List.cons_append, List.map_cons, List.cons.injEq] at huv
            exact huv.2

lemma keyEvents_append (t₁ t₂ : List Act) :
    keyEvents (t₁ ++ t₂) = keyEvents t₁ ++ keyEvents t₂ :=
  List.filterMap_append t₁ t₂ _

lemma keyEvents_activateTrace (w : Nat) :
    keyEvents (activateTrace w) = [] := rfl

lemma keyEvents_chordTrace (us : Bool) :
    keyEvents (chordTrace us) = pasteChordSpec us := by
  cases us <;> rfl

/-! ## Claim theorems -/

/-- Case-insensitive substring containment of `needle` in `hay`, stated
abstractly: some lowercasing of `needle` occurs contiguously inside the
lowercasing of `hay`. -/
def containsCaseless (hay needle : String) : Prop :=
  ∃ u v, u ++ needle.toList.map Char.toLower ++ v = hay.toList.map Char.toLower

/-- Claim C1: in the Windows poll loop, a read equal to the current baseline
emits no `CHANGED:` line and leaves the baseline unchanged, while a read that
differs (exact string inequality) from the immediately preceding reported
value emits exactly one `CHANGED:` line carrying the new value, which
becomes the baseline for all subsequent comparisons. -/
theorem windows_poll_step (b v : String) (rest : List (Option String)) :
    pollLoop (some b) (some b :: rest) = pollLoop (some b) rest ∧
    (v ≠ b →
      pollLoop (some b) (some v :: rest) =
        ("CHANGED:" ++ v) :: pollLoop (some v) rest) := by
  constructor
  · simp [pollLoop]
  · intro h
    simp [pollLoop, h]

/-- Witness for C1 at the concrete transition `"a" → "b"`. -/
theorem windows_poll_step_witness :
    "b" ≠ "a" ∧
      pollLoop (some "a") [some "b"] =
        ("CHANGED:" ++ "b") :: pollLoop (some "b") [] :=
  ⟨by decide, (windows_poll_step "a" "b" []).2 (by decide)⟩

/-- Claim C2: every Linux run that reaches synthesis emits exactly the key
events Control-down, Shift-down iff `use_shift`, V-down, V-up, Shift-up iff
`use_shift`, Control-up, in that order; with `use_shift = false` no Shift
event occurs at all. -/
theorem linux_paste_chord (env : LinuxEnv) (args : List String)
    (hd : env.displayOk = true) (hx : env.xtestOk = true) :
    keyEvents (linuxRun env args).trace =
      pasteChordSpec
        (useShift env (parseArgs env.stou args false 0).1
          (resolveWin env (parseArgs env.stou args false 0).2)) ∧
    (useShift env (parseArgs env.stou args false 0).1
        (resolveWin env (parseArgs env.stou args false 0).2) = false →
      ∀ p : Bool, (Key.shift, p) ∉ keyEvents (linuxRun env args).trace) := by
  have htrace : (linuxRun env args).trace =
      (if (parseArgs env.stou args false 0).2 ≠ 0 then
          activateTrace (parseArgs env.stou args false 0).2 else [])
        ++ chordTrace (useShift env (parseArgs env.stou args false 0).1
            (resolveWin env (parseArgs env.stou args false 0).2)) := by
    simp [linuxRun, hd, hx]
  have hmain : keyEvents (linuxRun env args).trace =
      pasteChordSpec
        (useShift env (parseArgs env.stou args false 0).1
          (resolveWin env (parseArgs env.stou args false 0).2)) := by
    rw [htrace, keyEvents_append, keyEvents_chordTrace]
    by_cases h0 : (parseArgs env.stou args false 0).2 ≠ 0
    · rw [if_pos h0, keyEvents_activateTrace, List.nil_append]
    · rw [if_neg h0]
      rfl
  refine ⟨hmain, ?_⟩
  intro hus p
  rw [hmain, hus]
  cases p <;> decide

/-- Witness for C2: a run with every oracle trivial still produces the
plain Ctrl+V chord. -/
theorem linux_paste_chord_witness :
    keyEvents (linuxRun ⟨true, true, 0, fun _ => none, fun _ => 0⟩ []).trace =
      pasteChordSpec
        (useShift ⟨true, true, 0, fun _ => none, fun _ => 0⟩
          (parseArgs (fun _ => 0) [] false 0).1
          (resolveWin ⟨true, true, 0, fun _ => none, fun _ => 0⟩
            (parseArgs (fun _ => 0) [] false 0).2)) :=
  (linux_paste_chord ⟨true, true, 0, fun _ => none, fun _ => 0⟩ [] rfl rfl).1

/-- Claim C3: with no `--terminal` override, a target whose class name or
instance name contains one of the `terminal_classes` entries
case-insensitively is classified `use_shift = true`; a target containing
none of them is classified `use_shift = false`. -/
theorem linux_terminal_classification (env : LinuxEnv) (win : Nat)
    (name cls : String) (hw : win ≠ 0)
    (hh : env.classHint win = some ⟨some name, some cls⟩) :
    (∀ t ∈ terminal_classes,
      containsCaseless cls t ∨ containsCaseless name t →
        useShift env false win = true) ∧
    ((∀ t ∈ terminal_classes,
        ¬containsCaseless cls t ∧ ¬containsCaseless name t) →
      useShift env false win = false) := by
  have hu : useShift env false win =
      (is_terminal (some cls) || is_terminal (some name)) := by
    simp [useShift, hw, hh]
  constructor
  · intro t ht h
    rw [hu]
    rcases h with h | h
    · have hc : is_terminal (some cls) = true := by
        simp only [is_terminal, List.any_eq_true]
        exact ⟨t, ht, (hasInfixCaseless_iff cls.toList t.toList).mpr h⟩
      simp [hc]
    · have hn : is_terminal (some name) = true := by
        simp only [is_terminal, List.any_eq_true]
        exact ⟨t, ht, (hasInfixCaseless_iff name.toList t.toList).mpr h⟩
      simp [hn]
  · intro hall
    rw [hu]
    have hc : is_terminal (some cls) = false := by
      simp only [is_terminal, List.any_eq_false]
      intro t ht hx
      exact (hall t ht).1 ((hasInfixCaseless_iff cls.toList t.toList).mp hx)
    have hn : is_terminal (some name) = false := by
      simp only [is_terminal, List.any_eq_false]
      intro t ht hx
      exact (hall t ht).2 ((hasInfixCaseless_iff name.toList t.toList).mp hx)
    simp [hc, hn]

/-- Witness for C3: class name `"XTerm"` matches the entry `"xterm"` and
yields `use_shift = true`. -/
theorem linux_terminal_classification_witness :
    useShift ⟨true, true, 1, fun _ => some ⟨some "foo", some "XTerm"⟩,
        fun _ => 0⟩ false 1 = true :=
  (linux_terminal_classification
      ⟨true, true, 1, fun _ => some ⟨some "foo", some "XTerm"⟩, fun _ => 0⟩
      1 "foo" "XTerm" (by decide) rfl).1
    "xterm" (by decide) (Or.inl ⟨[], [], by decide⟩)

/-- Counterexample to claim C4 as stated: a run in which value-pattern
acquisition fails before the poll loop is entered exits with status 0
(printing `NO_VALUE`), not 1. -/
theorem windows_exit_status_cex :
    (winRun ⟨true, true, true, false, none, []⟩).exitCode = 0 ∧
      ¬ (winRun ⟨true, true, true, false, none, []⟩).exitCode = 1 := by
  constructor
  · rfl
  · decide

/-- Claim C4 (amended): the Windows monitor exits with status 1 exactly when
COM initialization, automation-instance creation, or the focused-element
query fails; every other run — including the `NO_VALUE` paths where the
value pattern or the initial value cannot be acquired, and normal
timeout/signal termination — exits with status 0. -/
theorem windows_exit_status (env : WinEnv) :
    (winRun env).exitCode =
      if env.comOk && env.autoOk && env.focusOk then 0 else 1 := by
  rcases env with ⟨c, a, f, p, i, l⟩
  cases c <;> cases a <;> cases f <;> cases p <;> cases i <;> simp [winRun]

/-- Claim C5: when the focused element exposes no value pattern, the run
prints exactly the single line `NO_VALUE`, performs no poll iteration and no
poll sleep, and exits with status 0. -/
theorem windows_no_value_pattern (env : WinEnv)
    (hc : env.comOk = true) (ha : env.autoOk = true)
    (hf : env.focusOk = true) (hp : env.valuePatternOk = false) :
    winRun env = ⟨["NO_VALUE"], 0, 0⟩ := by
  rcases env with ⟨c, a, f, p, i, l⟩
  simp only at hc ha hf hp
  subst hc; subst ha; subst hf; subst hp
  rfl

/-- Witness for C5 at a concrete environment. -/
theorem windows_no_value_pattern_witness :
    winRun ⟨true, true, true, false, some "x", [some "y"]⟩ =
      ⟨["NO_VALUE"], 0, 0⟩ :=
  windows_no_value_pattern ⟨true, true, true, false, some "x", [some "y"]⟩
    rfl rfl rfl rfl

/-- Claim C6: a Linux run with no override (no `--terminal`, no effective
`--window` target) in which the active-window query resolves nothing still
synthesizes the plain chord with `use_shift = false` and exits 0; an
unresolved focus alone never aborts the run. -/
theorem linux_no_focus_default (env : LinuxEnv) (args : List String)
    (hd : env.displayOk = true) (hx : env.xtestOk = true)
    (hterm : "--terminal" ∉ args)
    (hwin : (parseArgs env.stou args false 0).2 = 0)
    (hact : env.activeWindow = 0) :
    linuxRun env args = ⟨0, chordTrace false⟩ ∧
      useShift env (parseArgs env.stou args false 0).1
        (resolveWin env (parseArgs env.stou args false 0).2) = false := by
  have hft : (parseArgs env.stou args false 0).1 = false :=
    parseArgs_fst_of_not_mem env.stou args false 0 hterm
  have hus : useShift env false 0 = false := by simp [useShift]
  have hres : resolveWin env (parseArgs env.stou args false 0).2 = 0 := by
    simp [resolveWin, hwin, hact]
  refine ⟨?_, by rw [hft, hres]; exact hus⟩
  simp [linuxRun, hd, hx, hwin, hft, resolveWin, hact, hus]

/-- Witness for C6 at a concrete environment with no resolvable window. -/
theorem linux_no_focus_default_witness :
    linuxRun ⟨true, true, 0, fun _ => none, fun _ => 0⟩ [] =
      ⟨0, chordTrace false⟩ :=
  (linux_no_focus_default ⟨true, true, 0, fun _ => none, fun _ => 0⟩ []
    rfl rfl (by simp) rfl rfl).1

/-- Claim C7: the Linux helper's exit status is 1 exactly when the display
connection cannot be opened, 2 when the display opened but the XTest
synthesis extension is missing, and 0 otherwise; in particular exit 2
implies the display connection succeeded, the two failures being checked in
that order. -/
theorem linux_exit_codes (env : LinuxEnv) (args : List String) :
    (linuxRun env args).exitCode =
      if env.displayOk then (if env.xtestOk then 0 else 2) else 1 := by
  by_cases hd : env.displayOk
  · by_cases hx : env.xtestOk
    · simp [linuxRun, hd, hx]
    · simp [linuxRun, hd, hx]
  · simp [linuxRun, hd]

/-- Claim C8: once the initial value is read, the monitor prints exactly one
`INITIAL_VALUE:` line followed only by `CHANGED:` lines; at every loop
iteration boundary the baseline is a non-null string — namely the initial
read if no change was reported yet, and otherwise the payload of the most
recent `CHANGED:` line — so the null-guard on `lastValue` never fails and
the remaining loop behaves as the guard-free loop `pollLoopS` started at
that baseline. -/
theorem windows_poll_invariant (env : WinEnv) (v0 : String)
    (hc : env.comOk = true) (ha : env.autoOk = true)
    (hf : env.focusOk = true) (hp : env.valuePatternOk = true)
    (hi : env.initialRead = some v0) :
    (winRun env).lines =
        ("INITIAL_VALUE:" ++ v0) :: pollLoop (some v0) env.polls ∧
    (∀ done rest, env.polls = done ++ rest →
        pollLoop (some v0) env.polls =
          pollLoopS v0 done ++ pollLoopS (finalBaseline v0 done) rest) ∧
    (∀ x ∈ pollLoop (some v0) env.polls, ∃ w, x = "CHANGED:" ++ w) ∧
    (∀ b done, (pollLoopS b done = [] ∧ finalBaseline b done = b) ∨
        lastLine (pollLoopS b done) =
          some ("CHANGED:" ++ finalBaseline b done)) := by
  refine ⟨?_, ?_, ?_, ?_⟩
  · simp [winRun, hc, ha, hf, hp, hi]
  · intro done rest hsplit
    rw [hsplit, pollLoop_some_eq, pollLoopS_append]
  · rw [pollLoop_some_eq]
    exact pollLoopS_lines v0 env.polls
  · exact fun b done => pollLoopS_lastLine b done

/-- Witness for C8 at a concrete run with one change. -/
theorem windows_poll_invariant_witness :
    (winRun ⟨true, true, true, true, some "a",
        [some "b", some "b", none]⟩).lines =
      ("INITIAL_VALUE:" ++ "a") ::
        pollLoop (some "a") [some "b", some "b", none] :=
  (windows_poll_invariant
      ⟨true, true, true, true, some "a", [some "b", some "b", none]⟩
      "a" rfl rfl rfl rfl rfl).1

/-- Claim C9: a `--window` argument whose value `strtoul`-parses to 0 is
treated exactly as if the flag were absent — the run is identical to the
run without the flag, and in particular no activation (client message or
direct focus) is ever performed. -/
theorem linux_window_zero (env : LinuxEnv) (pre : List String) (s : String)
    (hpre : "--window" ∉ pre) (hs : env.stou s = 0) :
    linuxRun env (pre ++ ["--window", s]) = linuxRun env pre ∧
      ∀ w, Act.sendActivate w ∉ (linuxRun env (pre ++ ["--window", s])).trace ∧
           Act.setFocus w ∉ (linuxRun env (pre ++ ["--window", s])).trace := by
  have h2 := parseArgs_snd_of_not_mem env.stou pre false 0 hpre
  have hparse : parseArgs env.stou (pre ++ ["--window", s]) false 0 =
      parseArgs env.stou pre false 0 := by
    rw [parseArgs_append_of_not_mem env.stou pre _ false 0 hpre,
      parseArgs_win_cons, hs]
    exact Prod.ext rfl h2.symm
  have heq : linuxRun env (pre ++ ["--window", s]) = linuxRun env pre := by
    simp only [linuxRun, hparse]
  have h0 : (parseArgs env.stou (pre ++ ["--window", s]) false 0).2 = 0 := by
    rw [hparse]; exact h2
  refine ⟨heq, ?_⟩
  have htr : (linuxRun env (pre ++ ["--window", s])).trace = [] ∨
      ∃ us, (linuxRun env (pre ++ ["--window", s])).trace = chordTrace us := by
    by_cases hd : env.displayOk
    · by_cases hx : env.xtestOk
      · refine Or.inr
          ⟨useShift env (parseArgs env.stou (pre ++ ["--window", s]) false 0).1
            (resolveWin env
              (parseArgs env.stou (pre ++ ["--window", s]) false 0).2), ?_⟩
        simp [linuxRun, hd, hx, h0]
      · exact Or.inl (by simp [linuxRun, hd, hx])
    · exact Or.inl (by simp [linuxRun, hd])
  intro w
  rcases htr with h | ⟨us, h⟩
  · simp [h]
  · rw [h]
    cases us <;> refine ⟨?_, ?_⟩ <;> simp [chordTrace]

/-- Witness for C9: `--window` with an unparseable value behaves as no
flag at all. -/
theorem linux_window_zero_witness :
    linuxRun ⟨true, true, 0, fun _ => none, fun _ => 0⟩
        ([] ++ ["--window", "abc"]) =
      linuxRun ⟨true, true, 0, fun _ => none, fun _ => 0⟩ [] :=
  (linux_window_zero ⟨true, true, 0, fun _ => none, fun _ => 0⟩ [] "abc"
    (by simp) rfl).1

/-- Claim C10: every pre-loop initialization failure — COM initialization,
automation-instance creation, or the focused-element query — prints exactly
the single line `NO_ELEMENT` and exits with status 1; the token is shared
by all three failures. -/
theorem windows_no_element (env : WinEnv)
    (h : env.comOk = false ∨ env.autoOk = false ∨ env.focusOk = false) :
    (winRun env).lines = ["NO_ELEMENT"] ∧ (winRun env).exitCode = 1 := by
  rcases h with h | h | h
  · simp [winRun, h]
  · by_cases hc : env.comOk <;> simp [winRun, hc, h]
  · by_cases hc : env.comOk <;> by_cases ha : env.autoOk <;>
      simp [winRun, hc, ha, h]

/-- Witness for C10: a COM initialization failure. -/
theorem windows_no_element_witness :
    (winRun ⟨false, true, true, true, none, []⟩).lines = ["NO_ELEMENT"] ∧
      (winRun ⟨false, true, true, true, none, []⟩).exitCode = 1 :=
  windows_no_element ⟨false, true, true, true, none, []⟩ (Or.inl rfl)
